import Mathlib

/-!
# Verification of the `borrow` runtime borrow-checking library (src/borrow.h)

A shallow embedding of the C++ header `borrow.h`, which implements a
Rust-style runtime borrow discipline: an owning container `RefCell<T>`
with a `std::atomic<int32_t>` counter `cnt_`, a shared read-only handle
`Ref<T>`, and an exclusive read-write handle `RefMut<T>`.

Modelling choices, faithful to the source:

* The counter is a 32-bit signed machine integer.  We model it as `Int`
  together with explicit two's-complement wraparound (`toInt32`,
  `inc32`, `dec32`), because `std::atomic` integer arithmetic is defined
  to wrap modulo 2^32.  `2147483648 = 2^31` and `4294967296 = 2^32`.
* Raw pointers `T*` are modelled as `Option α` (`none` = `nullptr`); the
  payload type `α` stands for the pointer value, so pointer identity is
  preserved.
* A handle's `p_cnt_` member is a pointer to the owner's counter or
  `nullptr`; in a single-cell model we record only whether it is
  non-null (`p_cnt_ : Bool`) and pass the owner's counter value
  explicitly to the handle operations.
* `borrow_verify(cond, msg)` aborts the process (production mode) or
  triggers a deliberate fault (analysis mode) when `cond` is false;
  either way execution does not continue.  Fallible operations
  therefore return `Option`: `none` means the verification primitive
  signalled a `BorrowStateViolation`.
-/

set_option autoImplicit false

/-- Two's-complement normalisation of an `Int` into the `int32_t` range
`[-2147483648, 2147483647]`, i.e. `[-2^31, 2^31)`. -/
def toInt32 (n : Int) : Int :=
  (n + 2147483648) % 4294967296 - 2147483648

/-- The `int32_t` increment `n + 1`, wrapping at `2^31 - 1`; models
`cnt_++` / `fetch_add(1)` on `std::atomic<int32_t>`. -/
def inc32 (n : Int) : Int := toInt32 (n + 1)

/-- The `int32_t` decrement `n - 1`, wrapping at `-2^31`; models
`cnt_--` / `fetch_sub(1)` on `std::atomic<int32_t>`. -/
def dec32 (n : Int) : Int := toInt32 (n - 1)

/-- State of a `RefCell<T>` (the Owner): `raw_` is the owning pointer to
the value (`T* raw_`, `none` = `nullptr`) and `cnt_` is the borrow-state
counter (`std::atomic<int32_t> cnt_`). -/
structure RefCellS (α : Type) where
  raw_ : Option α
  cnt_ : Int
deriving DecidableEq, Repr

/-- State of a `Ref<T>` (a SharedBorrow handle): `raw_` is the read-only
value pointer (`const T* raw_`) and `p_cnt_` records whether the
counter pointer `std::atomic<int32_t>* p_cnt_` is non-null. -/
structure RefS (α : Type) where
  raw_ : Option α
  p_cnt_ : Bool
deriving DecidableEq, Repr

/-- State of a `RefMut<T>` (a UniqueBorrow handle): `raw_` is the
mutable value pointer (`T* raw_`) and `p_cnt_` records whether the
counter pointer is non-null. -/
structure RefMutS (α : Type) where
  raw_ : Option α
  p_cnt_ : Bool
deriving DecidableEq, Repr

/-- `RefCell()` — default constructor: null pointer, counter `0`. -/
def RefCell.mk0 {α : Type} : RefCellS α := ⟨none, 0⟩

/-- `explicit RefCell(T* p)` — constructor from a pointer; counter `0`. -/
def RefCell.mkPtr {α : Type} (p : α) : RefCellS α := ⟨some p, 0⟩

/-- `RefCell::reset(T* p)` — replace the held pointer.  Verifies
`cnt_ == 0` both before and after the pointer write (two observation
points for an external race detector); `none` = violation signalled. -/
def RefCell.resetVal {α : Type} (s : RefCellS α) (p : α) : Option (RefCellS α) :=
  if s.cnt_ = 0 then
    let s1 : RefCellS α := { s with raw_ := some p }
    if s1.cnt_ = 0 then some s1 else none
  else none

/-- `RefCell::borrow_mut()` — verifies `cnt_ == 0`, then decrements the
counter to `-1`, hands the value pointer to the returned `RefMut` and
clears the cell's own `raw_`.  Returns `(handle, new cell state)`. -/
def RefCell.borrow_mut {α : Type} (s : RefCellS α) :
    Option (RefMutS α × RefCellS α) :=
  if s.cnt_ = 0 then
    some ({ raw_ := s.raw_, p_cnt_ := true }, { raw_ := none, cnt_ := dec32 s.cnt_ })
  else none

/-- `RefCell::borrow_const()` — reads the counter (`auto i = cnt_++`,
the increment happens unconditionally, the check looks at the old
value), verifies `i >= 0`, and returns a `Ref` holding the cell's value
pointer and the counter address. -/
def RefCell.borrow_const {α : Type} (s : RefCellS α) :
    Option (RefS α × RefCellS α) :=
  let i := s.cnt_
  let s1 : RefCellS α := { s with cnt_ := inc32 s.cnt_ }
  if 0 ≤ i then some ({ raw_ := s1.raw_, p_cnt_ := true }, s1) else none

/-- `RefCell::operator->()` — verifies `cnt_ == 0` and returns the raw
pointer (which may itself be null). -/
def RefCell.arrow {α : Type} (s : RefCellS α) : Option (Option α) :=
  if s.cnt_ = 0 then some s.raw_ else none

/-- `RefCell::reset()` — verifies `cnt_ == 0`, deletes the owned value
(`delete raw_`) and nulls the pointer. -/
def RefCell.reset {α : Type} (s : RefCellS α) : Option (RefCellS α) :=
  if s.cnt_ = 0 then some { s with raw_ := none } else none

/-- `RefCell::~RefCell()` — calls `reset()` only when `raw_` is
non-null; otherwise it does nothing (and checks nothing). -/
def RefCell.dtor {α : Type} (s : RefCellS α) : Option (RefCellS α) :=
  match s.raw_ with
  | some _ => RefCell.reset s
  | none => some s

/-- The atomic `p.cnt_.exchange(-2)` performed first by the move
constructor: returns the observed old counter and the source state with
its counter replaced by the `-2` sentinel. -/
def RefCell.moveExchange {α : Type} (s : RefCellS α) : Int × RefCellS α :=
  (s.cnt_, { s with cnt_ := -2 })

/-- `RefCell(RefCell&& p)` — move constructor: exchanges the source
counter with `-2`, verifies the observed value `i == 0` (and that the
freshly constructed destination counter is `0`, which holds by member
initialisation), then sets the destination counter to `i`, transfers
the pointer, and nulls the source (`p.raw_ = nullptr; p.cnt_ = 0`).
Returns `(destination, source-after-move)`. -/
def RefCell.moveCtor {α : Type} (s : RefCellS α) :
    Option (RefCellS α × RefCellS α) :=
  let r := RefCell.moveExchange s
  if r.1 = 0 then
    some ({ raw_ := r.2.raw_, cnt_ := r.1 }, { raw_ := none, cnt_ := 0 })
  else none

/-- `Ref(Ref&& p)` — move constructor: copies `raw_` and `p_cnt_`, nulls
the source, and never touches the counter.  Returns
`(destination, source-after-move)`. -/
def Ref.moveCtor {α : Type} (h : RefS α) : RefS α × RefS α :=
  ({ raw_ := h.raw_, p_cnt_ := h.p_cnt_ }, { raw_ := none, p_cnt_ := false })

/-- `Ref(Ref& p)` — copy constructor: copies both members, then
increments the counter (`auto i = (*p_cnt_)++`) and verifies `i > 0`.
Copying a handle whose `p_cnt_` is null dereferences `nullptr`, which
also stops execution, hence `none`. -/
def Ref.copyCtor {α : Type} (h : RefS α) (cnt : Int) : Option (RefS α × Int) :=
  if h.p_cnt_ then
    if 0 < cnt then some ({ raw_ := h.raw_, p_cnt_ := true }, inc32 cnt) else none
  else none

/-- `Ref::reset()` — decrements the counter (`auto i = (*p_cnt_)--`),
verifies `i > 0`, and nulls both members of the handle.  Takes and
returns the owner's counter value. -/
def Ref.reset {α : Type} (h : RefS α) (cnt : Int) : Option (RefS α × Int) :=
  if h.p_cnt_ then
    if 0 < cnt then some ({ raw_ := none, p_cnt_ := false }, dec32 cnt) else none
  else none

/-- `Ref::~Ref()` — if `p_cnt_` is non-null, decrements the counter and
verifies the old value was `> 0`; otherwise a no-op.  Returns the
resulting counter. -/
def Ref.dtor {α : Type} (h : RefS α) (cnt : Int) : Option Int :=
  if h.p_cnt_ then
    if 0 < cnt then some (dec32 cnt) else none
  else some cnt

/-- `RefMut(RefMut&& p)` — move constructor: transfers both members,
nulls the source, never touches the counter. -/
def RefMut.moveCtor {α : Type} (h : RefMutS α) : RefMutS α × RefMutS α :=
  ({ raw_ := h.raw_, p_cnt_ := h.p_cnt_ }, { raw_ := none, p_cnt_ := false })

/-- `RefMut::reset()` — increments the counter (`auto i = (*p_cnt_)++`),
verifies `i == -1`, and nulls both members.  Takes and returns the
owner's counter value.  A null `p_cnt_` dereference also stops
execution, hence `none`. -/
def RefMut.reset {α : Type} (h : RefMutS α) (cnt : Int) :
    Option (RefMutS α × Int) :=
  if h.p_cnt_ then
    if cnt = -1 then some ({ raw_ := none, p_cnt_ := false }, inc32 cnt) else none
  else none

/-- `RefMut::~RefMut()` — if `p_cnt_` is non-null, increments the
counter and verifies the old value was `-1`; otherwise a no-op. -/
def RefMut.dtor {α : Type} (h : RefMutS α) (cnt : Int) : Option Int :=
  if h.p_cnt_ then
    if cnt = -1 then some (inc32 cnt) else none
  else some cnt

/-- A shared-borrow protocol step: `acquire` is a call to
`RefCell::borrow_const()`, `release` is a call to `Ref::reset()` on a
live handle of that cell. -/
inductive SOp where
  | acquire : SOp
  | release : SOp
deriving DecidableEq, Repr

/-- Run a sequence of shared-borrow acquire/release steps against a
cell, threading the cell state; `none` as soon as any step signals a
violation.  Each step is the corresponding source operation:
`borrow_const` for `acquire`, `Ref::reset` (on a live handle carrying
the cell's counter pointer) for `release`. -/
def runShared {α : Type} (s : RefCellS α) : List SOp → Option (RefCellS α)
  | [] => some s
  | SOp.acquire :: r =>
    match RefCell.borrow_const s with
    | some x => runShared x.2 r
    | none => none
  | SOp.release :: r =>
    match Ref.reset ({ raw_ := s.raw_, p_cnt_ := true } : RefS α) s.cnt_ with
    | some x => runShared { s with cnt_ := x.2 } r
    | none => none

/-- `validFromB d ops` holds when, starting with `d` outstanding shared
borrows, every release in `ops` is matched by an earlier acquire (each
handle is acquired before it is released). -/
def validFromB : Nat → List SOp → Bool
  | _, [] => true
  | d, SOp.acquire :: r => validFromB (d + 1) r
  | 0, SOp.release :: _ => false
  | Nat.succ d, SOp.release :: r => validFromB d r

/-- Number of `acquire` steps in a step list. -/
def numAcq : List SOp → Nat
  | [] => 0
  | SOp.acquire :: r => numAcq r + 1
  | SOp.release :: r => numAcq r

/-- Number of `release` steps in a step list. -/
def numRel : List SOp → Nat
  | [] => 0
  | SOp.acquire :: r => numRel r
  | SOp.release :: r => numRel r + 1

/-- `2^31` shared acquires followed by `2^31` releases: a perfectly
matched acquire/release sequence that overflows the `int32_t`
counter. -/
def ovOps : List SOp :=
  List.replicate 2147483648 SOp.acquire ++ List.replicate 2147483648 SOp.release

/-- `toInt32` is the identity on the `int32_t` range. -/
theorem toInt32_eq_self {n : Int} (h1 : -2147483648 ≤ n) (h2 : n < 2147483648) :
    toInt32 n = n := by
  unfold toInt32
  have ha : (0 : Int) ≤ n + 2147483648 := by omega
  have hb : n + 2147483648 < 4294967296 := by omega
  rw [Int.emod_eq_of_lt ha hb]
  omega

/-- `dec32 0 = -1`: taking the exclusive borrow moves the counter from
`0` to `-1`. -/
theorem dec32_zero : dec32 0 = -1 := by decide

/-- `inc32 (-1) = 0`: releasing the exclusive borrow moves the counter
from `-1` back to `0`. -/
theorem inc32_neg_one : inc32 (-1) = 0 := by decide

/-- `inc32 0 = 1`: the first shared borrow moves the counter to `1`. -/
theorem inc32_zero : inc32 0 = 1 := by decide

/-- C2: for every counter value, `borrow_const` signals a violation
exactly when the pre-increment counter is negative, and otherwise
performs the machine increment of the counter; `borrow_mut` signals a
violation exactly when the counter is non-zero, and otherwise sets it
to `-1` (handing out the value pointer). -/
theorem claim_C2 {α : Type} (s : RefCellS α) :
    (RefCell.borrow_const s = none ↔ s.cnt_ < 0) ∧
    (0 ≤ s.cnt_ →
      RefCell.borrow_const s =
        some ({ raw_ := s.raw_, p_cnt_ := true }, { s with cnt_ := inc32 s.cnt_ })) ∧
    (RefCell.borrow_mut s = none ↔ s.cnt_ ≠ 0) ∧
    (s.cnt_ = 0 →
      RefCell.borrow_mut s =
        some ({ raw_ := s.raw_, p_cnt_ := true }, { raw_ := none, cnt_ := -1 })) := by
  refine ⟨?_, ?_, ?_, ?_⟩
  · simp only [RefCell.borrow_const]
    split <;> simp <;> omega
  · intro h
    simp [RefCell.borrow_const, h]
  · simp only [RefCell.borrow_mut]
    split <;> simp <;> omega
  · intro h
    simp [RefCell.borrow_mut, h, dec32_zero]

/-- Witness for C2 at a concrete cell with counter `3`. -/
theorem claim_C2_witness :
    RefCell.borrow_const (⟨some 5, 3⟩ : RefCellS Nat) =
      some (⟨some 5, true⟩, ⟨some 5, inc32 3⟩) :=
  (claim_C2 (⟨some 5, 3⟩ : RefCellS Nat)).2.1 (by decide)

/-- C3: the move constructor first exchanges the source counter with
the sentinel `-2`; it signals a violation exactly when the observed
prior counter was not `0`; on success the destination counter is `0`,
the destination inherits the source's pointer, and the source ends up
nulled (`raw_ = nullptr`, `cnt_ = 0`). -/
theorem claim_C3 {α : Type} (s : RefCellS α) :
    ((RefCell.moveExchange s).2.cnt_ = -2) ∧
    ((RefCell.moveExchange s).1 = s.cnt_) ∧
    (RefCell.moveCtor s = none ↔ s.cnt_ ≠ 0) ∧
    (s.cnt_ = 0 →
      RefCell.moveCtor s = some ({ raw_ := s.raw_, cnt_ := 0 }, { raw_ := none, cnt_ := 0 })) := by
  refine ⟨rfl, rfl, ?_, ?_⟩
  · simp only [RefCell.moveCtor, RefCell.moveExchange]
    split <;> simp_all
  · intro h
    simp [RefCell.moveCtor, RefCell.moveExchange, h]

/-- Witness for C3: moving out of a cell with counter `0` succeeds. -/
theorem claim_C3_witness :
    RefCell.moveCtor (⟨some 5, 0⟩ : RefCellS Nat) = some (⟨some 5, 0⟩, ⟨none, 0⟩) :=
  (claim_C3 (⟨some 5, 0⟩ : RefCellS Nat)).2.2.2 rfl

/-- C4: taking a unique borrow clears the owner's `raw_` field, and
releasing that borrow does not restore it: the released owner still has
a null pointer, and `operator->`, `borrow_const` and `borrow_mut` on it
all observe the null pointer. -/
theorem claim_C4 {α : Type} (s : RefCellS α) (hs : s.cnt_ = 0) :
    ∃ m s1, RefCell.borrow_mut s = some (m, s1) ∧ s1.raw_ = none ∧
      ∃ m2 c2, RefMut.reset m s1.cnt_ = some (m2, c2) ∧
        ({ s1 with cnt_ := c2 } : RefCellS α).raw_ = none ∧
        RefCell.arrow { s1 with cnt_ := c2 } = some none ∧
        (∃ r s3, RefCell.borrow_const { s1 with cnt_ := c2 } = some (r, s3) ∧
          r.raw_ = none ∧ s3.raw_ = none) ∧
        (∃ m3 s4, RefCell.borrow_mut { s1 with cnt_ := c2 } = some (m3, s4) ∧
          m3.raw_ = none ∧ s4.raw_ = none) := by
  refine ⟨⟨s.raw_, true⟩, ⟨none, -1⟩, ?_, rfl, ⟨none, false⟩, 0, ?_, rfl, ?_,
    ⟨⟨none, true⟩, ⟨none, 1⟩, ?_, rfl, rfl⟩, ⟨⟨none, true⟩, ⟨none, -1⟩, ?_, rfl, rfl⟩⟩
  · simp [RefCell.borrow_mut, hs, dec32_zero]
  · simp [RefMut.reset, inc32_neg_one]
  · simp [RefCell.arrow]
  · simp [RefCell.borrow_const, inc32_zero]
  · simp [RefCell.borrow_mut, dec32_zero]

/-- Witness for C4 at the concrete owner `⟨some 5, 0⟩`. -/
theorem claim_C4_witness :
    ∃ m s1, RefCell.borrow_mut (⟨some 5, 0⟩ : RefCellS Nat) = some (m, s1) ∧
      s1.raw_ = none ∧
      ∃ m2 c2, RefMut.reset m s1.cnt_ = some (m2, c2) ∧
        ({ s1 with cnt_ := c2 } : RefCellS Nat).raw_ = none ∧
        RefCell.arrow { s1 with cnt_ := c2 } = some none ∧
        (∃ r s3, RefCell.borrow_const { s1 with cnt_ := c2 } = some (r, s3) ∧
          r.raw_ = none ∧ s3.raw_ = none) ∧
        (∃ m3 s4, RefCell.borrow_mut { s1 with cnt_ := c2 } = some (m3, s4) ∧
          m3.raw_ = none ∧ s4.raw_ = none) :=
  claim_C4 (⟨some 5, 0⟩ : RefCellS Nat) rfl

/-- C6: with a live counter pointer, `Ref::reset` (and the destructor)
decrements the counter and signals a violation exactly when the
pre-decrement counter is not strictly positive; a successful release
nulls the handle's members, after which the destructor is a no-op. -/
theorem claim_C6 {α : Type} (h : RefS α) (cnt : Int) (hc : h.p_cnt_ = true) :
    (Ref.reset h cnt = none ↔ ¬0 < cnt) ∧
    (Ref.dtor h cnt = none ↔ ¬0 < cnt) ∧
    (0 < cnt → Ref.reset h cnt = some ({ raw_ := none, p_cnt_ := false }, dec32 cnt)) ∧
    (∀ c2 : Int, Ref.dtor ({ raw_ := none, p_cnt_ := false } : RefS α) c2 = some c2) := by
  refine ⟨?_, ?_, ?_, ?_⟩
  · simp [Ref.reset, hc]
  · simp [Ref.dtor, hc]
  · intro hpos
    simp [Ref.reset, hc, hpos]
  · intro c2
    simp [Ref.dtor]

/-- Witness for C6: releasing at counter `2` succeeds and decrements. -/
theorem claim_C6_witness :
    Ref.reset (⟨some 5, true⟩ : RefS Nat) 2 = some (⟨none, false⟩, dec32 2) :=
  (claim_C6 (⟨some 5, true⟩ : RefS Nat) 2 rfl).2.2.1 (by decide)

/-- C7: with a live counter pointer, `RefMut::reset` (and the
destructor) increments the counter and signals a violation exactly when
the pre-increment counter is not exactly `-1`; a successful release
returns the counter to `0`. -/
theorem claim_C7 {α : Type} (h : RefMutS α) (cnt : Int) (hc : h.p_cnt_ = true) :
    (RefMut.reset h cnt = none ↔ cnt ≠ -1) ∧
    (RefMut.dtor h cnt = none ↔ cnt ≠ -1) ∧
    (cnt = -1 → RefMut.reset h cnt = some ({ raw_ := none, p_cnt_ := false }, 0)) := by
  refine ⟨?_, ?_, ?_⟩
  · simp only [RefMut.reset, hc]
    split <;> simp_all
  · simp only [RefMut.dtor, hc]
    split <;> simp_all
  · intro hm
    simp [RefMut.reset, hc, hm, inc32_neg_one]

/-- Witness for C7: releasing at counter `-1` succeeds. -/
theorem claim_C7_witness :
    RefMut.reset (⟨some 5, true⟩ : RefMutS Nat) (-1) = some (⟨none, false⟩, 0) :=
  (claim_C7 (⟨some 5, true⟩ : RefMutS Nat) (-1) rfl).2.2 rfl

/-- C8: the concrete scenario `reset(new int(5)); borrowUnique; release;
borrowUnique; release` completes without any violation, the counter
stepping `0 → -1 → 0 → -1 → 0`. -/
theorem claim_C8 :
    RefCell.resetVal (RefCell.mk0 : RefCellS Nat) 5 = some ⟨some 5, 0⟩ ∧
    RefCell.borrow_mut (⟨some 5, 0⟩ : RefCellS Nat) = some (⟨some 5, true⟩, ⟨none, -1⟩) ∧
    RefMut.reset (⟨some 5, true⟩ : RefMutS Nat) (-1) = some (⟨none, false⟩, 0) ∧
    RefCell.borrow_mut (⟨none, 0⟩ : RefCellS Nat) = some (⟨none, true⟩, ⟨none, -1⟩) ∧
    RefMut.reset (⟨none, true⟩ : RefMutS Nat) (-1) = some (⟨none, false⟩, 0) := by
  decide

/-- C10: after a unique borrow is taken from `⟨some 5, 0⟩` and released,
a second `borrow_mut` succeeds without violation but its handle carries
a null value pointer, and `operator->` on the released owner passes its
`cnt_ == 0` check yet yields a null pointer. -/
theorem claim_C10 :
    RefCell.borrow_mut (⟨some 5, 0⟩ : RefCellS Nat) = some (⟨some 5, true⟩, ⟨none, -1⟩) ∧
    RefMut.reset (⟨some 5, true⟩ : RefMutS Nat) (-1) = some (⟨none, false⟩, 0) ∧
    RefCell.borrow_mut (⟨none, 0⟩ : RefCellS Nat) = some (⟨none, true⟩, ⟨none, -1⟩) ∧
    (⟨none, true⟩ : RefMutS Nat).raw_ = none ∧
    RefCell.arrow (⟨none, 0⟩ : RefCellS Nat) = some none := by
  decide

/-- Counterexample to C1 as stated: with a unique borrow outstanding
(counter `-1`), the owner's `raw_` was cleared by `borrow_mut`, so the
destructor's `if (raw_)` guard skips the check entirely and no
violation is signalled. -/
theorem claim_C1_counterexample :
    RefCell.borrow_mut (⟨some 5, 0⟩ : RefCellS Nat) = some (⟨some 5, true⟩, ⟨none, -1⟩) ∧
    (⟨none, -1⟩ : RefCellS Nat).cnt_ ≠ 0 ∧
    RefCell.dtor (⟨none, -1⟩ : RefCellS Nat) = some ⟨none, -1⟩ := by
  decide

/-- C1 (amended): the destructor signals a violation exactly when the
internal value pointer is non-null and the counter is non-zero; with a
null internal pointer (in particular while a unique borrow is
outstanding, since taking it clears the pointer) it is a silent no-op;
with a non-null pointer and counter `0` it deletes the owned value. -/
theorem claim_C1 {α : Type} (s : RefCellS α) :
    (RefCell.dtor s = none ↔ s.raw_ ≠ none ∧ s.cnt_ ≠ 0) ∧
    (s.raw_ ≠ none → s.cnt_ = 0 → RefCell.dtor s = some { s with raw_ := none }) ∧
    (s.raw_ = none → RefCell.dtor s = some s) := by
  refine ⟨?_, ?_, ?_⟩
  · cases hr : s.raw_ with
    | none => simp [RefCell.dtor, hr]
    | some p =>
        simp only [RefCell.dtor, RefCell.reset, hr]
        split <;> simp_all
  · intro hr hz
    cases hp : s.raw_ with
    | none => exact absurd hp hr
    | some p => simp [RefCell.dtor, RefCell.reset, hp, hz]
  · intro hr
    simp [RefCell.dtor, hr]

/-- Witness for C1 (amended): destroying an unborrowed, non-empty owner
deletes the value and signals nothing. -/
theorem claim_C1_witness :
    RefCell.dtor (⟨some 5, 0⟩ : RefCellS Nat) = some ⟨none, 0⟩ :=
  (claim_C1 (⟨some 5, 0⟩ : RefCellS Nat)).2.1 (by decide) rfl

/-- Counterexample to C9 as stated: at counter `0`, `borrow_const`
succeeds (its check is `i >= 0`) while the `Ref` copy constructor
signals a violation (its check is `i > 0`), so the two do not share the
same precondition. -/
theorem claim_C9_counterexample :
    RefCell.borrow_const (⟨some 5, 0⟩ : RefCellS Nat) = some (⟨some 5, true⟩, ⟨some 5, 1⟩) ∧
    Ref.copyCtor (⟨some 5, true⟩ : RefS Nat) 0 = none := by
  decide

/-- C9 (amended): copying a live `Ref` increments the counter and
signals a violation exactly when the pre-increment counter is not
strictly positive (strictly stronger than `borrow_const`, which also
admits `0`); moving a `Ref` transfers both members to the destination,
nulls the source, and never touches the counter. -/
theorem claim_C9 {α : Type} (h : RefS α) (cnt : Int) (hc : h.p_cnt_ = true) :
    (Ref.copyCtor h cnt = none ↔ ¬0 < cnt) ∧
    (0 < cnt → Ref.copyCtor h cnt = some ({ raw_ := h.raw_, p_cnt_ := true }, inc32 cnt)) ∧
    Ref.moveCtor h = ({ raw_ := h.raw_, p_cnt_ := h.p_cnt_ }, { raw_ := none, p_cnt_ := false }) := by
  refine ⟨?_, ?_, rfl⟩
  · simp [Ref.copyCtor, hc]
  · intro hpos
    simp [Ref.copyCtor, hc, hpos]

/-- Witness for C9 (amended): copying at counter `1` succeeds. -/
theorem claim_C9_witness :
    Ref.copyCtor (⟨some 5, true⟩ : RefS Nat) 1 = some (⟨some 5, true⟩, inc32 1) :=
  (claim_C9 (⟨some 5, true⟩ : RefS Nat) 1 rfl).2.1 (by decide)

/-- An acquire step on a cell whose counter is non-negative advances to
the incremented counter. -/
theorem runShared_acquire {α : Type} (ro : Option α) (c : Int) (r : List SOp)
    (hs : 0 ≤ c) :
    runShared (⟨ro, c⟩ : RefCellS α) (SOp.acquire :: r) = runShared ⟨ro, inc32 c⟩ r := by
  simp [runShared, RefCell.borrow_const, hs]

/-- A release step on a cell whose counter is strictly positive
advances to the decremented counter. -/
theorem runShared_release {α : Type} (ro : Option α) (c : Int) (r : List SOp)
    (hs : 0 < c) :
    runShared (⟨ro, c⟩ : RefCellS α) (SOp.release :: r) = runShared ⟨ro, dec32 c⟩ r := by
  simp [runShared, Ref.reset, hs]

/-- A release step on a cell whose counter is not strictly positive
signals a violation. -/
theorem runShared_release_fail {α : Type} (ro : Option α) (c : Int) (r : List SOp)
    (hs : ¬0 < c) :
    runShared (⟨ro, c⟩ : RefCellS α) (SOp.release :: r) = none := by
  simp [runShared, Ref.reset, hs]

/-- Balanced shared-borrow runs that stay inside the `int32_t` range
never signal and land on the start counter plus the net balance. -/
theorem runShared_balanced {α : Type} :
    ∀ (ops : List SOp) (d : Nat) (c : Int) (ro : Option α),
      validFromB d ops = true → 0 ≤ c →
      c + d + numAcq ops ≤ 2147483647 →
      runShared (⟨ro, c + d⟩ : RefCellS α) ops =
        some ⟨ro, c + d + (numAcq ops : Int) - (numRel ops : Int)⟩ := by
  intro ops
  induction ops with
  | nil =>
      intro d c ro _ _ _
      simp [runShared, numAcq, numRel]
  | cons op r ih =>
      cases op with
      | acquire =>
          intro d c ro hv hc hb
          have hv2 : validFromB (d + 1) r = true := by simpa [validFromB] using hv
          have hn : numAcq (SOp.acquire :: r) = numAcq r + 1 := rfl
          have hm : numRel (SOp.acquire :: r) = numRel r := rfl
          rw [hn] at hb
          rw [hn, hm]
          rw [runShared_acquire ro (c + d) r (by omega)]
          have hinc : inc32 (c + d) = c + ((d + 1 : Nat) : Int) := by
            unfold inc32
            rw [toInt32_eq_self (by omega) (by push_cast at hb; omega)]
            push_cast
            ring
          rw [hinc, ih (d + 1) c ro hv2 hc (by push_cast at hb; omega)]
          have harith : c + ((d + 1 : Nat) : Int) + (numAcq r : Int) - (numRel r : Int) =
              c + (d : Int) + ((numAcq r + 1 : Nat) : Int) - (numRel r : Int) := by
            push_cast
            ring
          rw [harith]
      | release =>
          intro d c ro hv hc hb
          cases d with
          | zero => exact absurd hv (by simp [validFromB])
          | succ d1 =>
              have hv2 : validFromB d1 r = true := by simpa [validFromB] using hv
              have hn : numAcq (SOp.release :: r) = numAcq r := rfl
              have hm : numRel (SOp.release :: r) = numRel r + 1 := rfl
              rw [hn] at hb
              rw [hn, hm]
              rw [runShared_release ro (c + ((d1 + 1 : Nat) : Int)) r (by push_cast; omega)]
              have hdec : dec32 (c + ((d1 + 1 : Nat) : Int)) = c + (d1 : Int) := by
                unfold dec32
                rw [toInt32_eq_self (by push_cast; omega) (by push_cast at hb ⊢; omega)]
                push_cast
                ring
              rw [hdec, ih d1 c ro hv2 hc (by push_cast at hb ⊢; omega)]
              have harith : c + (d1 : Int) + (numAcq r : Int) - (numRel r : Int) =
                  c + ((d1 + 1 : Nat) : Int) + (numAcq r : Int) - ((numRel r + 1 : Nat) : Int) := by
                push_cast
                ring
              rw [harith]

/-- C5 (amended): any properly nested interleaving of N shared
acquires and N releases, started on a counter that accepts shared
borrows, signals nothing and returns the counter to its starting
value — provided the counter plus N stays within the `int32_t` range. -/
theorem claim_C5 {α : Type} (ops : List SOp) (s : RefCellS α)
    (hv : validFromB 0 ops = true) (hbal : numAcq ops = numRel ops)
    (hc : 0 ≤ s.cnt_) (hb : s.cnt_ + numAcq ops ≤ 2147483647) :
    runShared s ops = some s := by
  obtain ⟨ro, c⟩ := s
  have h := runShared_balanced ops 0 c ro hv hc (by simpa using hb)
  rw [hbal] at h
  simpa using h

/-- Witness for C5: two acquires then two releases from counter `0`. -/
theorem claim_C5_witness :
    runShared (⟨some 5, 0⟩ : RefCellS Nat)
      [SOp.acquire, SOp.acquire, SOp.release, SOp.release] = some ⟨some 5, 0⟩ :=
  claim_C5 _ _ (by decide) (by decide) (by decide) (by decide)

/-- Peeling a block of acquires off `validFromB` raises the depth. -/
theorem validFromB_replicate_acquire :
    ∀ (n d : Nat) (rest : List SOp),
      validFromB d (List.replicate n SOp.acquire ++ rest) = validFromB (d + n) rest := by
  intro n
  induction n with
  | zero => intro d rest; simp
  | succ m ih =>
      intro d rest
      rw [List.replicate_succ, List.cons_append]
      have h1 : validFromB d (SOp.acquire :: (List.replicate m SOp.acquire ++ rest)) =
          validFromB (d + 1) (List.replicate m SOp.acquire ++ rest) := by
        simp [validFromB]
      rw [h1, ih (d + 1) rest]
      congr 1
      omega

/-- A block of releases no deeper than the current depth is valid. -/
theorem validFromB_replicate_release :
    ∀ (n d : Nat), n ≤ d → validFromB d (List.replicate n SOp.release) = true := by
  intro n
  induction n with
  | zero => intro d _; simp [validFromB]
  | succ m ih =>
      intro d hle
      cases d with
      | zero => omega
      | succ d1 =>
          rw [List.replicate_succ]
          have h1 : validFromB (d1 + 1) (SOp.release :: List.replicate m SOp.release) =
              validFromB d1 (List.replicate m SOp.release) := by
            simp [validFromB]
          rw [h1]
          exact ih d1 (by omega)

/-- `numAcq` distributes over append. -/
theorem numAcq_append : ∀ (a b : List SOp), numAcq (a ++ b) = numAcq a + numAcq b := by
  intro a b
  induction a with
  | nil => simp [numAcq]
  | cons op r ih =>
      cases op with
      | acquire => simp [numAcq, ih]; omega
      | release => simp [numAcq, ih]

/-- `numRel` distributes over append. -/
theorem numRel_append : ∀ (a b : List SOp), numRel (a ++ b) = numRel a + numRel b := by
  intro a b
  induction a with
  | nil => simp [numRel]
  | cons op r ih =>
      cases op with
      | acquire => simp [numRel, ih]
      | release => simp [numRel, ih]; omega

/-- A block of `n` acquires counts `n` acquires. -/
theorem numAcq_replicate_acquire : ∀ n : Nat, numAcq (List.replicate n SOp.acquire) = n := by
  intro n
  induction n with
  | zero => rfl
  | succ m ih => rw [List.replicate_succ]; simp [numAcq, ih]

/-- A block of releases counts no acquires. -/
theorem numAcq_replicate_release : ∀ n : Nat, numAcq (List.replicate n SOp.release) = 0 := by
  intro n
  induction n with
  | zero => rfl
  | succ m ih => rw [List.replicate_succ]; simp [numAcq, ih]

/-- A block of acquires counts no releases. -/
theorem numRel_replicate_acquire : ∀ n : Nat, numRel (List.replicate n SOp.acquire) = 0 := by
  intro n
  induction n with
  | zero => rfl
  | succ m ih => rw [List.replicate_succ]; simp [numRel, ih]

/-- A block of `n` releases counts `n` releases. -/
theorem numRel_replicate_release : ∀ n : Nat, numRel (List.replicate n SOp.release) = n := by
  intro n
  induction n with
  | zero => rfl
  | succ m ih => rw [List.replicate_succ]; simp [numRel, ih]

/-- Running a block of `n` acquires that stays strictly below `2^31`
adds `n` to the counter without wrapping or signalling. -/
theorem runShared_replicate_acquire {α : Type} :
    ∀ (n : Nat) (c : Int) (ro : Option α) (rest : List SOp),
      0 ≤ c → c + n < 2147483648 →
      runShared (⟨ro, c⟩ : RefCellS α) (List.replicate n SOp.acquire ++ rest) =
        runShared ⟨ro, c + n⟩ rest := by
  intro n
  induction n with
  | zero => intro c ro rest _ _; simp
  | succ m ih =>
      intro c ro rest hc hb
      rw [List.replicate_succ, List.cons_append, runShared_acquire ro c _ hc]
      have hinc : inc32 c = c + 1 := by
        unfold inc32
        rw [toInt32_eq_self (by omega) (by push_cast at hb; omega)]
      rw [hinc, ih (c + 1) ro rest (by omega) (by push_cast at hb; omega)]
      have harith : c + 1 + (m : Int) = c + ((m + 1 : Nat) : Int) := by
        push_cast
        ring
      rw [harith]

/-- Counterexample to C5 as stated (for every N): with `N = 2^31`
shared acquires from counter `0` — a perfectly matched, properly nested
acquire/release sequence — the `int32_t` counter wraps to `-2^31`
after the last acquire, and the first release then signals a violation
instead of returning the counter to `0`. -/
theorem claim_C5_counterexample :
    validFromB 0 ovOps = true ∧ numAcq ovOps = numRel ovOps ∧
    runShared (⟨some 5, 0⟩ : RefCellS Nat) ovOps = none := by
  refine ⟨?_, ?_, ?_⟩
  · unfold ovOps
    rw [validFromB_replicate_acquire]
    exact validFromB_replicate_release 2147483648 (0 + 2147483648) (by omega)
  · unfold ovOps
    rw [numAcq_append, numRel_append, numAcq_replicate_acquire,
      numAcq_replicate_release, numRel_replicate_acquire, numRel_replicate_release]
  · have hsplit : ovOps = List.replicate 2147483647 SOp.acquire ++
        (SOp.acquire :: List.replicate 2147483648 SOp.release) := by
      unfold ovOps
      rw [show (2147483648 : Nat) = 2147483647 + 1 from rfl, List.replicate_succ']
      rw [List.append_assoc, List.singleton_append]
    rw [hsplit,
      runShared_replicate_acquire 2147483647 0 (some 5) _ (le_refl 0) (by norm_num)]
    have hc1 : (0 : Int) + ((2147483647 : Nat) : Int) = 2147483647 := by norm_num
    rw [hc1, runShared_acquire (some 5) 2147483647 _ (by norm_num)]
    have hwrap : inc32 (2147483647 : Int) = -2147483648 := by decide
    rw [hwrap, show (2147483648 : Nat) = 2147483647 + 1 from rfl, List.replicate_succ]
    exact runShared_release_fail (some 5) (-2147483648) _ (by norm_num)
